import Mathlib

/-!
Verification development for the web-serial-polyfill repository: a serial-port
abstraction (the Web Serial API surface) implemented over WebUSB for CDC-ACM
devices.  The repository ships only the TypeScript declaration file
src/dist/serial.d.ts; the bodies of the declared methods (validateOptions,
isValidBaudRate/DataBits/StopBits/Parity, setLineCoding, readLineCoding, open,
close, reconfigure, setSignals, the readable/writable getters and the
data-channel chunking) are not under src/, so each is modelled here from the
specification document and marked as such in its doc comment.
-/

namespace WebSerial

/-- Parity is the TypeScript string union 'none' | 'even' | 'odd' | 'mark' |
'space'; it is modelled as a string so that undefined parity strings (such as
"xyz") are representable, as the validation spec requires. -/
abbrev ParityType := String

/-- Modelled from the spec (data model §3) and the SerialOptions interface of
serial.d.ts: baudRate (positive integer), dataBits, stopBits, parity,
bufferSize (transfer chunk size) and the four flow-control flags, which are
accepted for API compatibility but never transmitted.  baudRate is an Int so
that the negative baud rates the validation spec rejects are representable. -/
structure SerialOptions where
  baudRate : Int
  dataBits : Nat
  stopBits : Nat
  parity : ParityType
  bufferSize : Nat
  rtscts : Bool
  xon : Bool
  xoff : Bool
  xany : Bool
deriving DecidableEq, Repr

/-- The error taxonomy of spec §7.  DeviceError optionally carries the count of
bytes successfully transferred before the failure (partial-write counts are
always surfaced with DeviceError). -/
inductive SerialError where
  | invalidOption (field : String)
  | malformedResponse
  | deviceError (bytesWritten : Option Nat)
  | deviceDisconnected
  | alreadyOpen
  | notOpen
deriving DecidableEq, Repr

/-- Modelled from the spec: the implementation-defined sane upper bound on the
baud rate.  The wire format stores the rate in an unsigned 32-bit field
(dwDTERate), so the sane range is taken to be the values representable there. -/
def saneBaudRateBound : Int := 4294967296

/-- Modelled from the spec (§4.1, missing isValidBaudRate body): the baud rate
must be positive and within the implementation-defined sane range. -/
def isValidBaudRate (baudRate : Int) : Bool :=
  0 < baudRate && baudRate < saneBaudRateBound

/-- Modelled from the spec (§4.1, missing isValidDataBits body): only 8 data
bits are supported; other values the wire format allows are rejected. -/
def isValidDataBits (dataBits : Nat) : Bool :=
  dataBits == 8

/-- Modelled from the spec (§4.1, missing isValidStopBits body): stop bits must
be 1 or 2. -/
def isValidStopBits (stopBits : Nat) : Bool :=
  stopBits == 1 || stopBits == 2

/-- Modelled from the spec (§4.1, missing isValidParity body): parity must be
one of the five defined parity strings. -/
def isValidParity (parity : ParityType) : Bool :=
  parity == "none" || parity == "even" || parity == "odd" ||
  parity == "mark" || parity == "space"

/-- Modelled from the spec (§4.1, missing validateOptions body): checks each
field in turn and fails with InvalidOption naming the first offending field;
succeeds exactly when every field passes its validity predicate. -/
def validateOptions (options : SerialOptions) : Except SerialError Unit :=
  if !isValidBaudRate options.baudRate then
    Except.error (SerialError.invalidOption "baudRate")
  else if !isValidDataBits options.dataBits then
    Except.error (SerialError.invalidOption "dataBits")
  else if !isValidStopBits options.stopBits then
    Except.error (SerialError.invalidOption "stopBits")
  else if !isValidParity options.parity then
    Except.error (SerialError.invalidOption "parity")
  else
    Except.ok ()

/-- Modelled from the spec (§3 LineCoding): the bCharFormat stop-bit code,
0 for 1 stop bit and 2 for 2 stop bits (1 would mean 1.5 stop bits, which the
integer stopBits option cannot request). -/
def stopBitsCode (stopBits : Nat) : Nat :=
  if stopBits == 2 then 2 else 0

/-- Modelled from the spec (§3 LineCoding): the bParityType code,
0=none, 1=odd, 2=even, 3=mark, 4=space. -/
def parityCode (parity : ParityType) : Nat :=
  if parity == "none" then 0
  else if parity == "odd" then 1
  else if parity == "even" then 2
  else if parity == "mark" then 3
  else 4

/-- Modelled from the spec (§4.1 encode / missing setLineCoding body): the
7-byte CDC-ACM line-coding structure — dwDTERate as an unsigned 32-bit
little-endian integer, then bCharFormat, bParityType and bDataBits, in that
fixed field order. -/
def encodeLineCoding (options : SerialOptions) : List Nat :=
  let b := options.baudRate.toNat
  [b % 256, b / 256 % 256, b / 65536 % 256, b / 16777216 % 256,
   stopBitsCode options.stopBits, parityCode options.parity,
   options.dataBits % 256]

/-- The serial options a 7-byte line coding carries: the four fields of the
wire structure (bufferSize and the flow-control flags have no wire
representation). -/
structure LineCodingOptions where
  baudRate : Int
  dataBits : Nat
  stopBits : Nat
  parity : ParityType
deriving DecidableEq, Repr

/-- Decodes a bCharFormat byte to a stop-bit count.  Code 1 (1.5 stop bits) is
inside the wire enum but has no integer stopBits representation, so it is
rejected alongside out-of-range codes. -/
def decodeStopBits (code : Nat) : Option Nat :=
  match code with
  | 0 => some 1
  | 2 => some 2
  | _ => none

/-- Decodes a bParityType byte to a parity string. -/
def decodeParity (code : Nat) : Option ParityType :=
  match code with
  | 0 => some "none"
  | 1 => some "odd"
  | 2 => some "even"
  | 3 => some "mark"
  | 4 => some "space"
  | _ => none

/-- Decodes a bDataBits byte: the wire format defines 5, 6, 7, 8 and 16. -/
def decodeDataBits (code : Nat) : Option Nat :=
  if code == 5 || code == 6 || code == 7 || code == 8 || code == 16 then
    some code
  else
    none

/-- Modelled from the spec (§4.1 decode / missing readLineCoding body): parses
a 7-byte line-coding structure, failing with MalformedResponse when the byte
count is not 7 or an enum byte is outside the defined set. -/
def readLineCoding (bytes : List Nat) : Except SerialError LineCodingOptions :=
  match bytes with
  | [b0, b1, b2, b3, charFormat, parityType, dataBitsByte] =>
    match decodeStopBits charFormat, decodeParity parityType,
          decodeDataBits dataBitsByte with
    | some stopBits, some parity, some dataBits =>
      Except.ok
        ⟨Int.ofNat (b0 + b1 * 256 + b2 * 65536 + b3 * 16777216),
         dataBits, stopBits, parity⟩
    | _, _, _ => Except.error SerialError.malformedResponse
  | _ => Except.error SerialError.malformedResponse

/-- A sample of valid serial options: 9600 baud, 8 data bits, 1 stop bit, no
parity, the Web Serial default bufferSize of 255 and no flow control. -/
def defaultOptions : SerialOptions :=
  ⟨9600, 8, 1, "none", 255, false, false, false, false⟩

/-- The CDC-ACM class request codes of spec §6 (wire format). -/
def SET_LINE_CODING : Nat := 0x20

/-- GET_LINE_CODING class request code. -/
def GET_LINE_CODING : Nat := 0x21

/-- SET_CONTROL_LINE_STATE class request code. -/
def SET_CONTROL_LINE_STATE : Nat := 0x22

/-- SEND_BREAK class request code. -/
def SEND_BREAK : Nat := 0x23

/-- A USB operation issued to the transport collaborator, as observed on the
wire: interface claims/releases, class control requests directed at the
control interface (request code, wValue, payload) and bulk OUT transfers on
the data interface. -/
inductive UsbRequest where
  | claimControlInterface
  | claimDataInterface
  | releaseControlInterface
  | releaseDataInterface
  | controlOut (request : Nat) (value : Nat) (payload : List Nat)
  | bulkOut (payload : List Nat)
deriving DecidableEq, Repr

/-- The session states of spec §4.4.  OPENING and CLOSING are transient inside
the atomic open()/close() calls of this sequential model, so steps go directly
CLOSED to OPEN and back. -/
inductive PortState where
  | closed
  | opening
  | opened
  | closing
deriving DecidableEq, Repr

/-- The persisted output-signal state (spec §3 OutputSignals): dtr and rts.
brk is a momentary line condition sent via SEND_BREAK and is not persisted. -/
structure OutputSignals where
  dtr : Bool
  rts : Bool
deriving DecidableEq, Repr

/-- The SerialOutputSignals argument of setSignals (serial.d.ts): each field
optional; an unset field keeps the prior device state. -/
structure SerialOutputSignals where
  dtr : Option Bool
  rts : Option Bool
  brk : Option Bool
deriving DecidableEq, Repr

/-- The 2-bit control-line-state mask: bit 0 = DTR, bit 1 = RTS (spec §4.2). -/
def controlLineMask (s : OutputSignals) : Nat :=
  (if s.dtr then 1 else 0) + (if s.rts then 2 else 0)

/-- A port: its session state, the serial options recorded while open, and the
last-sent output signals.  Models the SerialPort class fields of serial.d.ts
(serialOptions_, outputSignals_ and the state implied by the open session). -/
structure Port where
  state : PortState
  serialOptions : Option SerialOptions
  outputSignals : OutputSignals
deriving DecidableEq, Repr

/-- A freshly constructed port: closed, unconfigured, signals low. -/
def initialPort : Port :=
  ⟨PortState.closed, none, ⟨false, false⟩⟩

/-- Modelled from the spec (§4.4, missing open body): a successful open claims
the control and data interfaces, then issues SET_LINE_CODING with the encoded
options and an initial SET_CONTROL_LINE_STATE, with the default signals
modelled as dtr = false, rts = false. -/
def openTrace (options : SerialOptions) : List UsbRequest :=
  [UsbRequest.claimControlInterface, UsbRequest.claimDataInterface,
   UsbRequest.controlOut SET_LINE_CODING 0 (encodeLineCoding options),
   UsbRequest.controlOut SET_CONTROL_LINE_STATE (controlLineMask ⟨false, false⟩) []]

/-- Modelled from the spec (§4.4, missing open body): open() fails with
AlreadyOpen on an OPEN port, validates the options before any device I/O,
and on success records the options, resets the signals and reaches OPEN.
deviceOk abstracts the USB transport: when false the configuration fails,
every claim is unwound and the port returns to CLOSED with a DeviceError. -/
def openPort (deviceOk : Bool) (p : Port) (options : SerialOptions) :
    Port × List UsbRequest × Except SerialError Unit :=
  if p.state = PortState.opened then
    (p, [], Except.error SerialError.alreadyOpen)
  else
    match validateOptions options with
    | Except.error e => (p, [], Except.error e)
    | Except.ok _ =>
      if deviceOk then
        (⟨PortState.opened, some options, ⟨false, false⟩⟩, openTrace options,
         Except.ok ())
      else
        (⟨PortState.closed, none, ⟨false, false⟩⟩,
         [UsbRequest.claimControlInterface, UsbRequest.releaseControlInterface],
         Except.error (SerialError.deviceError none))

/-- Modelled from the spec (§4.4, missing close body): close() cancels
transfers, releases the claimed interfaces and always reaches CLOSED. -/
def closePort (p : Port) : Port × List UsbRequest × Except SerialError Unit :=
  (⟨PortState.closed, none, ⟨false, false⟩⟩,
   if p.state = PortState.opened then
     [UsbRequest.releaseControlInterface, UsbRequest.releaseDataInterface]
   else [],
   Except.ok ())

/-- External device disconnection (spec §4.4): the session is force-torn-down
to CLOSED. -/
def disconnectPort (_ : Port) : Port :=
  ⟨PortState.closed, none, ⟨false, false⟩⟩

/-- Modelled from the spec (§4.4, missing reconfigure body): legal only while
OPEN, validates before any device I/O, then re-issues SET_LINE_CODING and
records the new options. -/
def reconfigurePort (p : Port) (options : SerialOptions) :
    Port × List UsbRequest × Except SerialError Unit :=
  if p.state ≠ PortState.opened then
    (p, [], Except.error SerialError.notOpen)
  else
    match validateOptions options with
    | Except.error e => (p, [], Except.error e)
    | Except.ok _ =>
      ({ p with serialOptions := some options },
       [UsbRequest.controlOut SET_LINE_CODING 0 (encodeLineCoding options)],
       Except.ok ())

/-- Modelled from the spec (§4.2 and §4.4, missing setSignals body): legal only
while OPEN.  Unspecified dtr/rts fields take the last-sent values tracked in
OutputSignals; when dtr or rts is specified a SET_CONTROL_LINE_STATE with the
2-bit mask of the merged values is issued and the merged values are stored.
When brk is specified a SEND_BREAK with duration 0xFFFF (on) or 0x0000 (off)
is issued; brk is not persisted. -/
def setSignalsPort (p : Port) (signals : SerialOutputSignals) :
    Port × List UsbRequest × Except SerialError Unit :=
  if p.state ≠ PortState.opened then
    (p, [], Except.error SerialError.notOpen)
  else
    let newDtr := signals.dtr.getD p.outputSignals.dtr
    let newRts := signals.rts.getD p.outputSignals.rts
    let lineReqs :=
      if signals.dtr.isSome || signals.rts.isSome then
        [UsbRequest.controlOut SET_CONTROL_LINE_STATE
          (controlLineMask ⟨newDtr, newRts⟩) []]
      else []
    let breakReqs :=
      match signals.brk with
      | some true => [UsbRequest.controlOut SEND_BREAK 0xFFFF []]
      | some false => [UsbRequest.controlOut SEND_BREAK 0x0000 []]
      | none => []
    ({ p with outputSignals := ⟨newDtr, newRts⟩ }, lineReqs ++ breakReqs,
     Except.ok ())

/-- Fuel-bounded chunking loop: takes bufferSize-byte slices off the front of
the data until it is exhausted.  The fuel only bounds the recursion; any fuel
at least the data length is enough when bufferSize is positive. -/
def chunkifyAux (bufferSize : Nat) : Nat → List Nat → List (List Nat)
  | 0, _ => []
  | _, [] => []
  | fuel + 1, d => d.take bufferSize :: chunkifyAux bufferSize fuel (d.drop bufferSize)

/-- Modelled from the spec (§4.3, missing write body): splits the data into
chunks no larger than bufferSize, preserving byte order.  A zero bufferSize
never validates, so that case is mapped to no chunks. -/
def chunkify (bufferSize : Nat) (data : List Nat) : List (List Nat) :=
  if bufferSize = 0 then [] else chunkifyAux bufferSize data.length data

/-- Modelled from the spec (§4.3, missing write body): submits the chunks as
successive bulk OUT transfers.  The oracle ok tells whether the transfer with
a given index succeeds; a failing transfer aborts the remaining chunks and the
DeviceError carries the count of bytes successfully transferred before it. -/
def submitChunks (ok : Nat → Bool) (idx acc : Nat) :
    List (List Nat) → List UsbRequest × Except SerialError Nat
  | [] => ([], Except.ok acc)
  | c :: rest =>
    if ok idx then
      let r := submitChunks ok (idx + 1) (acc + c.length) rest
      (UsbRequest.bulkOut c :: r.1, r.2)
    else
      ([UsbRequest.bulkOut c], Except.error (SerialError.deviceError (some acc)))

/-- Writing a byte sequence with a given chunk size: chunk, then submit. -/
def writeData (ok : Nat → Bool) (bufferSize : Nat) (data : List Nat) :
    List UsbRequest × Except SerialError Nat :=
  submitChunks ok 0 0 (chunkify bufferSize data)

/-- Modelled from the spec (§4.3 and §4.4): write() is legal only while OPEN
and uses the bufferSize configured at the time of the call. -/
def portWrite (ok : Nat → Bool) (p : Port) (data : List Nat) :
    Port × List UsbRequest × Except SerialError Nat :=
  match p.serialOptions with
  | some o =>
    if p.state = PortState.opened then
      let r := writeData ok o.bufferSize data
      (p, r.1, r.2)
    else (p, [], Except.error SerialError.notOpen)
  | none => (p, [], Except.error SerialError.notOpen)

/-- A byte stream handle backed by the data interface, carrying the transfer
chunk size it was created with. -/
structure ByteStream where
  chunkSize : Nat
deriving DecidableEq, Repr

/-- Modelled from the spec (§6, missing readable getter body): the readable
byte source is obtainable only while the session is OPEN. -/
def Port.readable (p : Port) : Option ByteStream :=
  match p.serialOptions with
  | some o => if p.state = PortState.opened then some ⟨o.bufferSize⟩ else none
  | none => none

/-- Modelled from the spec (§6, missing writable getter body): the writable
byte sink is obtainable only while the session is OPEN. -/
def Port.writable (p : Port) : Option ByteStream :=
  match p.serialOptions with
  | some o => if p.state = PortState.opened then some ⟨o.bufferSize⟩ else none
  | none => none

/-- The ports reachable from a freshly constructed port through the exposed
operations and external disconnection. -/
inductive Reachable : Port → Prop where
  | init : Reachable initialPort
  | openStep (deviceOk : Bool) (o : SerialOptions) (p : Port) :
      Reachable p → Reachable (openPort deviceOk p o).1
  | closeStep (p : Port) : Reachable p → Reachable (closePort p).1
  | reconfigureStep (o : SerialOptions) (p : Port) :
      Reachable p → Reachable (reconfigurePort p o).1
  | setSignalsStep (s : SerialOutputSignals) (p : Port) :
      Reachable p → Reachable (setSignalsPort p s).1
  | writeStep (ok : Nat → Bool) (d : List Nat) (p : Port) :
      Reachable p → Reachable (portWrite ok p d).1
  | disconnectStep (p : Port) : Reachable p → Reachable (disconnectPort p)

/-- Recognizes a SET_LINE_CODING class request. -/
def isLineCodingReq : UsbRequest → Bool
  | UsbRequest.controlOut rq _ _ => rq == SET_LINE_CODING
  | _ => false

/-- Recognizes a SET_CONTROL_LINE_STATE class request. -/
def isControlLineStateReq : UsbRequest → Bool
  | UsbRequest.controlOut rq _ _ => rq == SET_CONTROL_LINE_STATE
  | _ => false

/-- Recognizes a bulk data transfer. -/
def isBulkReq : UsbRequest → Bool
  | UsbRequest.bulkOut _ => true
  | _ => false

/-- A sample opened port used by concrete witnesses. -/
def openedPort : Port :=
  ⟨PortState.opened, some defaultOptions, ⟨false, false⟩⟩

/-- Valid options with a tiny bufferSize, for concrete chunking witnesses. -/
def smallBufferOptions : SerialOptions :=
  ⟨9600, 8, 1, "none", 2, false, false, false, false⟩

/-- An open port configured with the tiny bufferSize. -/
def smallBufferPort : Port :=
  ⟨PortState.opened, some smallBufferOptions, ⟨false, false⟩⟩

/-- Unpacks a successful validation into the individual field conditions. -/
theorem validateOptions_ok_iff (o : SerialOptions) :
    validateOptions o = Except.ok () ↔
      (isValidBaudRate o.baudRate = true ∧ isValidDataBits o.dataBits = true ∧
       isValidStopBits o.stopBits = true ∧ isValidParity o.parity = true) := by
  unfold validateOptions
  by_cases h1 : isValidBaudRate o.baudRate <;>
    by_cases h2 : isValidDataBits o.dataBits <;>
      by_cases h3 : isValidStopBits o.stopBits <;>
        by_cases h4 : isValidParity o.parity <;>
          simp [h1, h2, h3, h4]

/-- Base-256 recomposition of a number below 2^32 from its four
little-endian digits. -/
theorem base256_recompose (b : Nat) (hb : b < 4294967296) :
    b % 256 + b / 256 % 256 * 256 + b / 65536 % 256 * 65536 +
      b / 16777216 % 256 * 16777216 = b := by
  omega

/-- C1: for every SerialOptions value accepted by the validity predicate,
decoding the 7-byte line coding produced by encoding it yields the original
options, i.e. exactly the four fields the wire structure carries (bufferSize
and the flow-control flags are not part of the line coding). -/
theorem lineCoding_roundTrip (o : SerialOptions)
    (h : validateOptions o = Except.ok ()) :
    readLineCoding (encodeLineCoding o) =
      Except.ok ⟨o.baudRate, o.dataBits, o.stopBits, o.parity⟩ := by
  rcases (validateOptions_ok_iff o).mp h with ⟨hb, hd, hs, hp⟩
  have hd8 : o.dataBits = 8 := by
    simpa [isValidDataBits] using hd
  have hbr : 0 < o.baudRate ∧ o.baudRate < saneBaudRateBound := by
    simpa [isValidBaudRate, Bool.and_eq_true, decide_eq_true_iff] using hb
  have hbd : saneBaudRateBound = 4294967296 := rfl
  rw [hbd] at hbr
  have hsv : o.stopBits = 1 ∨ o.stopBits = 2 := by
    simpa [isValidStopBits, Bool.or_eq_true, beq_iff_eq] using hs
  have hpv : o.parity = "none" ∨ o.parity = "even" ∨ o.parity = "odd" ∨
      o.parity = "mark" ∨ o.parity = "space" := by
    simpa [isValidParity, Bool.or_eq_true, beq_iff_eq, or_assoc] using hp
  rcases hsv with hsv | hsv <;>
    rcases hpv with hpv | hpv | hpv | hpv | hpv <;>
      simp [encodeLineCoding, readLineCoding, stopBitsCode, parityCode,
        decodeStopBits, decodeParity, decodeDataBits, hd8, hsv, hpv] <;>
      omega

/-- Witness for C1 at the sample options. -/
theorem lineCoding_roundTrip_witness :
    readLineCoding (encodeLineCoding defaultOptions) =
      Except.ok ⟨defaultOptions.baudRate, defaultOptions.dataBits,
        defaultOptions.stopBits, defaultOptions.parity⟩ :=
  lineCoding_roundTrip defaultOptions rfl

/-- C2: encoding 9600 baud, 8 data bits, 1 stop bit, no parity produces
exactly the 7 bytes 0x80 0x25 0x00 0x00 (9600 little-endian), stop-bit code 0,
parity code 0 and data-bits byte 8, in that fixed field order. -/
theorem encodeLineCoding_default :
    encodeLineCoding defaultOptions = [0x80, 0x25, 0x00, 0x00, 0x00, 0x00, 0x08] := by
  decide

/-- Concatenating the chunks gives back the data, provided the fuel covers the
data length. -/
theorem chunkifyAux_flatten (b : Nat) (hb : 0 < b) :
    ∀ (fuel : Nat) (data : List Nat), data.length ≤ fuel →
      (chunkifyAux b fuel data).flatten = data := by
  intro fuel
  induction fuel with
  | zero =>
    intro data h
    have hnil : data = [] := List.eq_nil_of_length_eq_zero (Nat.le_zero.mp h)
    subst hnil
    simp [chunkifyAux]
  | succ fuel ih =>
    intro data h
    cases data with
    | nil => simp [chunkifyAux]
    | cons a l =>
      have hdrop : ((a :: l).drop b).length ≤ fuel := by
        rw [List.length_drop]
        simp only [List.length_cons] at h ⊢
        omega
      simp only [chunkifyAux, List.flatten_cons, ih _ hdrop]
      exact List.take_append_drop b (a :: l)

/-- Every chunk is no larger than the buffer size. -/
theorem chunkifyAux_size (b : Nat) :
    ∀ (fuel : Nat) (data : List Nat) (c : List Nat),
      c ∈ chunkifyAux b fuel data → c.length ≤ b := by
  intro fuel
  induction fuel with
  | zero =>
    intro data c hc
    simp [chunkifyAux] at hc
  | succ fuel ih =>
    intro data c hc
    cases data with
    | nil => simp [chunkifyAux] at hc
    | cons a l =>
      simp only [chunkifyAux, List.mem_cons] at hc
      rcases hc with hc | hc
      · subst hc
        rw [List.length_take]
        omega
      · exact ih _ _ hc

/-- One step of the ceiling-division count: splitting off a chunk of size b
reduces the remaining chunk count by one. -/
theorem ceilDiv_step (b L : Nat) (hb : 0 < b) (hL : 0 < L) :
    (L + b - 1) / b = (L - b + b - 1) / b + 1 := by
  rcases le_or_lt L b with h | h
  · have h0 : L - b = 0 := by omega
    have h1 : L + b - 1 = (L - 1) + b := by omega
    have h2 : (L - 1) / b = 0 := Nat.div_eq_of_lt (by omega)
    have h3 : (0 + b - 1) / b = 0 := Nat.div_eq_of_lt (by omega)
    rw [h0, h1, Nat.add_div_right _ hb, h2, h3]
  · have h1 : L + b - 1 = (L - 1) + b := by omega
    have h2 : L - b + b - 1 = (L - b - 1) + b := by omega
    have h3 : L - 1 = (L - b - 1) + b := by omega
    rw [h1, h2, Nat.add_div_right _ hb, Nat.add_div_right _ hb, h3,
      Nat.add_div_right _ hb]

/-- The number of chunks is the ceiling of length over buffer size, provided
the fuel covers the data length. -/
theorem chunkifyAux_length (b : Nat) (hb : 0 < b) :
    ∀ (fuel : Nat) (data : List Nat), data.length ≤ fuel →
      (chunkifyAux b fuel data).length = (data.length + b - 1) / b := by
  intro fuel
  induction fuel with
  | zero =>
    intro data h
    have hnil : data = [] := List.eq_nil_of_length_eq_zero (Nat.le_zero.mp h)
    subst hnil
    simp only [chunkifyAux, List.length_nil]
    exact (Nat.div_eq_of_lt (by omega)).symm
  | succ fuel ih =>
    intro data h
    cases data with
    | nil =>
      simp only [chunkifyAux, List.length_nil]
      exact (Nat.div_eq_of_lt (by omega)).symm
    | cons a l =>
      have hdrop : ((a :: l).drop b).length ≤ fuel := by
        rw [List.length_drop]
        simp only [List.length_cons] at h ⊢
        omega
      simp only [chunkifyAux, List.length_cons, ih _ hdrop, List.length_drop]
      rw [ceilDiv_step b (l.length + 1) hb (by omega)]

/-- Submitting chunks when the transfer at offset k (relative to the starting
index) fails: the first k transfers succeed, the failing one is submitted and
aborts the rest, and the error carries the bytes transferred before it. -/
theorem submitChunks_fail (ok : Nat → Bool) :
    ∀ (k : Nat) (chunks : List (List Nat)) (idx acc : Nat),
      (∀ i, i < k → ok (idx + i) = true) → ok (idx + k) = false →
      k < chunks.length →
      submitChunks ok idx acc chunks =
        ((chunks.take (k + 1)).map UsbRequest.bulkOut,
         Except.error (SerialError.deviceError
           (some (acc + ((chunks.take k).flatten).length))) ) := by
  intro k
  induction k with
  | zero =>
    intro chunks idx acc hs hf hk
    match chunks with
    | [] => simp at hk
    | c :: rest =>
      have h0 : ok idx = false := by simpa using hf
      simp [submitChunks, h0]
  | succ k ih =>
    intro chunks idx acc hs hf hk
    match chunks with
    | [] => simp at hk
    | c :: rest =>
      have h0 : ok idx = true := by
        have := hs 0 (Nat.succ_pos k)
        simpa using this
      have hs' : ∀ i, i < k → ok (idx + 1 + i) = true := by
        intro i hi
        have := hs (i + 1) (by omega)
        rw [show idx + 1 + i = idx + (i + 1) by omega]
        exact this
      have hf' : ok (idx + 1 + k) = false := by
        rw [show idx + 1 + k = idx + (k + 1) by omega]
        exact hf
      have hk' : k < rest.length := by
        simpa using hk
      have hrest := ih rest (idx + 1) (acc + c.length) hs' hf' hk'
      simp [submitChunks, h0, hrest, List.take_succ_cons, List.flatten_cons]
      omega

/-- C3: a write of data longer than the configured bufferSize on an open port
is split into exactly the ceiling of length over bufferSize chunks, each no
larger than bufferSize, whose in-order concatenation is the original data;
when the transfer of chunk k fails, only chunks up to and including k are
submitted as bulk OUT transfers and the DeviceError carries the total bytes
of the k preceding chunks. -/
theorem write_chunking (ok : Nat → Bool) (p : Port) (o : SerialOptions)
    (data : List Nat) (k : Nat)
    (hopen : p.state = PortState.opened) (hopts : p.serialOptions = some o)
    (hb : 0 < o.bufferSize) (_hlong : o.bufferSize < data.length)
    (hsucc : ∀ i, i < k → ok i = true) (hfail : ok k = false)
    (hk : k < (chunkify o.bufferSize data).length) :
    (chunkify o.bufferSize data).length =
      (data.length + o.bufferSize - 1) / o.bufferSize ∧
    (∀ c ∈ chunkify o.bufferSize data, c.length ≤ o.bufferSize) ∧
    (chunkify o.bufferSize data).flatten = data ∧
    (portWrite ok p data).2.1 =
      ((chunkify o.bufferSize data).take (k + 1)).map UsbRequest.bulkOut ∧
    (portWrite ok p data).2.2 =
      Except.error (SerialError.deviceError
        (some (((chunkify o.bufferSize data).take k).flatten).length)) := by
  have hbne : ¬o.bufferSize = 0 := by omega
  have hch : chunkify o.bufferSize data =
      chunkifyAux o.bufferSize data.length data := by
    simp [chunkify, hbne]
  have hsub := submitChunks_fail ok k (chunkify o.bufferSize data) 0 0
    (by simpa using hsucc) (by simpa using hfail) hk
  have hw : portWrite ok p data =
      (p, writeData ok o.bufferSize data) := by
    simp [portWrite, hopts, hopen]
  refine ⟨?_, ?_, ?_, ?_, ?_⟩
  · rw [hch]
    exact chunkifyAux_length o.bufferSize hb data.length data le_rfl
  · intro c hc
    rw [hch] at hc
    exact chunkifyAux_size o.bufferSize data.length data c hc
  · rw [hch]
    exact chunkifyAux_flatten o.bufferSize hb data.length data le_rfl
  · rw [hw]
    simp only [writeData, hsub]
  · rw [hw]
    simp only [writeData, hsub, Nat.zero_add]

/-- Witness for C3: buffer size 2, five bytes, second transfer fails; the
first two chunks are submitted, two bytes are reported written. -/
theorem write_chunking_witness :
    (portWrite (fun i => decide (i ≠ 1)) smallBufferPort [1, 2, 3, 4, 5]).2.2 =
      Except.error (SerialError.deviceError (some 2)) :=
  (write_chunking (fun i => decide (i ≠ 1)) smallBufferPort smallBufferOptions
    [1, 2, 3, 4, 5] 1 rfl rfl (by decide) (by decide)
    (by decide) (by decide) (by decide)).2.2.2.2

/-- C4: the validity predicate accepts exactly those options with a positive
baud rate inside the sane range, 8 data bits, 1 or 2 stop bits and one of the
five defined parity strings. -/
theorem validateOptions_accepts_iff (o : SerialOptions) :
    validateOptions o = Except.ok () ↔
      (0 < o.baudRate ∧ o.baudRate < saneBaudRateBound ∧ o.dataBits = 8 ∧
       (o.stopBits = 1 ∨ o.stopBits = 2) ∧
       (o.parity = "none" ∨ o.parity = "even" ∨ o.parity = "odd" ∨
        o.parity = "mark" ∨ o.parity = "space")) := by
  rw [validateOptions_ok_iff]
  simp [isValidBaudRate, isValidDataBits, isValidStopBits, isValidParity,
    Bool.and_eq_true, Bool.or_eq_true, decide_eq_true_iff, beq_iff_eq,
    and_assoc, or_assoc]

/-- Every validation failure names one of the four checked fields. -/
theorem validateOptions_error_field (o : SerialOptions) (e : SerialError)
    (h : validateOptions o = Except.error e) :
    e = SerialError.invalidOption "baudRate" ∨
    e = SerialError.invalidOption "dataBits" ∨
    e = SerialError.invalidOption "stopBits" ∨
    e = SerialError.invalidOption "parity" := by
  unfold validateOptions at h
  split_ifs at h <;> simp_all

/-- C5: an options value rejected by validation is rejected with an
InvalidOption naming the offending field; open() and reconfigure() reject it
with that error before any device I/O, leaving the port unchanged, and each
of the canonical bad values (dataBits 9, stopBits 3, parity "xyz", zero or
negative baudRate) is rejected naming its field. -/
theorem invalid_options_reject (o : SerialOptions) (e : SerialError)
    (hinv : validateOptions o = Except.error e) :
    (∃ field, e = SerialError.invalidOption field) ∧
    (∀ (p : Port) (deviceOk : Bool), p.state ≠ PortState.opened →
      openPort deviceOk p o = (p, [], Except.error e)) ∧
    (∀ p : Port, p.state = PortState.opened →
      reconfigurePort p o = (p, [], Except.error e)) ∧
    validateOptions { defaultOptions with dataBits := 9 } =
      Except.error (SerialError.invalidOption "dataBits") ∧
    validateOptions { defaultOptions with stopBits := 3 } =
      Except.error (SerialError.invalidOption "stopBits") ∧
    validateOptions { defaultOptions with parity := "xyz" } =
      Except.error (SerialError.invalidOption "parity") ∧
    validateOptions { defaultOptions with baudRate := 0 } =
      Except.error (SerialError.invalidOption "baudRate") ∧
    validateOptions { defaultOptions with baudRate := -9600 } =
      Except.error (SerialError.invalidOption "baudRate") := by
  refine ⟨?_, ?_, ?_, rfl, rfl, rfl, rfl, rfl⟩
  · rcases validateOptions_error_field o e hinv with h | h | h | h <;>
      exact ⟨_, h⟩
  · intro p deviceOk hp
    simp [openPort, hp, hinv]
  · intro p hp
    simp [reconfigurePort, hp, hinv]

/-- Witness for C5: opening a closed port with 9 data bits is rejected with
InvalidOption on dataBits and no device I/O. -/
theorem invalid_options_reject_witness :
    openPort true initialPort { defaultOptions with dataBits := 9 } =
      (initialPort, [], Except.error (SerialError.invalidOption "dataBits")) :=
  (invalid_options_reject { defaultOptions with dataBits := 9 }
    (SerialError.invalidOption "dataBits") rfl).2.1 initialPort true
    (by decide)

/-- C6: a successful open() on a closed port reaches OPEN and its USB trace
contains exactly one SET_LINE_CODING request, exactly one
SET_CONTROL_LINE_STATE request and no bulk data transfer, so both
configuration requests precede any data transfer, which becomes possible only
once the port is OPEN. -/
theorem open_configures (p : Port) (o : SerialOptions)
    (hclosed : p.state = PortState.closed)
    (hok : (openPort true p o).2.2 = Except.ok ()) :
    (openPort true p o).1.state = PortState.opened ∧
    (openPort true p o).2.1.countP isLineCodingReq = 1 ∧
    (openPort true p o).2.1.countP isControlLineStateReq = 1 ∧
    (openPort true p o).2.1.countP isBulkReq = 0 := by
  have hne : ¬p.state = PortState.opened := by
    rw [hclosed]
    intro hcon
    cases hcon
  rcases hv : validateOptions o with e | u
  · rw [openPort] at hok
    simp [hne, hv] at hok
  · simp [openPort, hne, hv, openTrace, List.countP_cons, List.countP_nil,
      isLineCodingReq, isControlLineStateReq, isBulkReq,
      SET_LINE_CODING, SET_CONTROL_LINE_STATE]

/-- Witness for C6 at a fresh port and the sample options. -/
theorem open_configures_witness :
    (openPort true initialPort defaultOptions).1.state = PortState.opened :=
  (open_configures initialPort defaultOptions rfl rfl).1

/-- C7: open() on an already-OPEN port fails with AlreadyOpen, issues no USB
request and returns the port completely unchanged. -/
theorem open_already_open (deviceOk : Bool) (p : Port) (o : SerialOptions)
    (h : p.state = PortState.opened) :
    openPort deviceOk p o = (p, [], Except.error SerialError.alreadyOpen) := by
  simp [openPort, h]

/-- Witness for C7 at the sample opened port. -/
theorem open_already_open_witness :
    openPort true openedPort defaultOptions =
      (openedPort, [], Except.error SerialError.alreadyOpen) :=
  open_already_open true openedPort defaultOptions rfl

/-- The 2-bit control-line-state mask has bit 0 = DTR and bit 1 = RTS. -/
theorem controlLineMask_bits (d r : Bool) :
    controlLineMask ⟨d, r⟩ < 4 ∧ (controlLineMask ⟨d, r⟩).testBit 0 = d ∧
      (controlLineMask ⟨d, r⟩).testBit 1 = r := by
  cases d <;> cases r <;> decide

/-- C8: setSignals() on an OPEN port succeeds; the stored output signals
become the call's dtr/rts values with unspecified fields taken from the
last-sent values; every SET_CONTROL_LINE_STATE it issues carries a 2-bit mask
whose bit 0 is the merged DTR and bit 1 the merged RTS; and such a request is
issued whenever dtr or rts is specified. -/
theorem setSignals_mask (p : Port) (s : SerialOutputSignals)
    (h : p.state = PortState.opened) :
    (setSignalsPort p s).1.outputSignals =
      ⟨s.dtr.getD p.outputSignals.dtr, s.rts.getD p.outputSignals.rts⟩ ∧
    (setSignalsPort p s).2.2 = Except.ok () ∧
    (∀ m payload,
      UsbRequest.controlOut SET_CONTROL_LINE_STATE m payload ∈
        (setSignalsPort p s).2.1 →
      m < 4 ∧ m.testBit 0 = s.dtr.getD p.outputSignals.dtr ∧
        m.testBit 1 = s.rts.getD p.outputSignals.rts) ∧
    ((s.dtr.isSome || s.rts.isSome) = true →
      UsbRequest.controlOut SET_CONTROL_LINE_STATE
        (controlLineMask
          ⟨s.dtr.getD p.outputSignals.dtr, s.rts.getD p.outputSignals.rts⟩) []
        ∈ (setSignalsPort p s).2.1) := by
  have hne : ¬p.state ≠ PortState.opened := by simp [h]
  refine ⟨?_, ?_, ?_, ?_⟩
  · simp [setSignalsPort, hne]
  · simp [setSignalsPort, hne]
  · intro m payload hm
    simp only [setSignalsPort, hne, if_false, List.mem_append] at hm
    rcases hm with hm | hm
    · by_cases hspec : (s.dtr.isSome || s.rts.isSome) = true
      · simp only [hspec, if_true, List.mem_singleton] at hm
        rcases hm with ⟨hmm⟩
        exact controlLineMask_bits _ _
      · simp [hspec] at hm
    · rcases hb : s.brk with _ | b
      · simp [hb] at hm
      · cases b <;> simp [hb, SEND_BREAK, SET_CONTROL_LINE_STATE] at hm
  · intro hspec
    simp [setSignalsPort, hne, hspec]

/-- Witness for C8: specifying only dtr keeps the stored rts value. -/
theorem setSignals_mask_witness :
    (setSignalsPort openedPort ⟨some true, none, none⟩).1.outputSignals =
      ⟨true, false⟩ :=
  (setSignals_mask openedPort ⟨some true, none, none⟩ rfl).1

/-- C9: a brk-on call followed by a brk-off call on an OPEN port issues
exactly the two SEND_BREAK requests with durations 0xFFFF then 0x0000 (and
nothing else), and neither call changes the stored DTR/RTS signal state. -/
theorem sendBreak_pulse (p : Port) (h : p.state = PortState.opened) :
    (setSignalsPort p ⟨none, none, some true⟩).2.1 ++
      (setSignalsPort (setSignalsPort p ⟨none, none, some true⟩).1
        ⟨none, none, some false⟩).2.1 =
      [UsbRequest.controlOut SEND_BREAK 0xFFFF [],
       UsbRequest.controlOut SEND_BREAK 0x0000 []] ∧
    (setSignalsPort p ⟨none, none, some true⟩).1.outputSignals =
      p.outputSignals ∧
    (setSignalsPort (setSignalsPort p ⟨none, none, some true⟩).1
      ⟨none, none, some false⟩).1.outputSignals = p.outputSignals := by
  have hne : ¬p.state ≠ PortState.opened := by simp [h]
  simp [setSignalsPort, hne]

/-- Witness for C9 at the sample opened port. -/
theorem sendBreak_pulse_witness :
    (setSignalsPort openedPort ⟨none, none, some true⟩).2.1 ++
      (setSignalsPort (setSignalsPort openedPort ⟨none, none, some true⟩).1
        ⟨none, none, some false⟩).2.1 =
      [UsbRequest.controlOut SEND_BREAK 0xFFFF [],
       UsbRequest.controlOut SEND_BREAK 0x0000 []] :=
  (sendBreak_pulse openedPort rfl).1

/-- Every reachable open port has recorded serial options. -/
theorem reachable_options_recorded (p : Port) (hr : Reachable p) :
    p.state = PortState.opened → p.serialOptions.isSome = true := by
  induction hr with
  | init =>
    intro hcon
    simp [initialPort] at hcon
  | openStep deviceOk o q hq ih =>
    by_cases h1 : q.state = PortState.opened
    · simpa [openPort, h1] using ih
    · rcases hv : validateOptions o with e | u
      · simpa [openPort, h1, hv] using ih
      · cases deviceOk <;> simp [openPort, h1, hv]
  | closeStep q hq ih =>
    intro hcon
    simp [closePort] at hcon
  | reconfigureStep o q hq ih =>
    by_cases h1 : q.state = PortState.opened
    · rcases hv : validateOptions o with e | u
      · simpa [reconfigurePort, h1, hv] using ih
      · simp [reconfigurePort, h1, hv]
    · simpa [reconfigurePort, h1] using ih
  | setSignalsStep s q hq ih =>
    by_cases h1 : q.state = PortState.opened
    · simpa [setSignalsPort, h1] using ih
    · simpa [setSignalsPort, h1] using ih
  | writeStep ok d q hq ih =>
    have hfst : (portWrite ok q d).1 = q := by
      rcases ho : q.serialOptions with _ | o
      · simp [portWrite, ho]
      · by_cases h1 : q.state = PortState.opened <;> simp [portWrite, ho, h1]
    rw [hfst]
    exact ih
  | disconnectStep q hq ih =>
    intro hcon
    simp [disconnectPort] at hcon

/-- C10: in every reachable port state, the readable byte source and the
writable byte sink are obtainable exactly while the port is OPEN. -/
theorem streams_iff_open (p : Port) (hr : Reachable p) :
    (p.readable.isSome = true ↔ p.state = PortState.opened) ∧
    (p.writable.isSome = true ↔ p.state = PortState.opened) := by
  have hinv := reachable_options_recorded p hr
  constructor
  · rcases ho : p.serialOptions with _ | o
    · simp only [Port.readable, ho, Option.isSome_none, Bool.false_eq_true,
        false_iff]
      intro hcon
      have hs := hinv hcon
      rw [ho] at hs
      simp at hs
    · by_cases h1 : p.state = PortState.opened <;>
        simp [Port.readable, ho, h1]
  · rcases ho : p.serialOptions with _ | o
    · simp only [Port.writable, ho, Option.isSome_none, Bool.false_eq_true,
        false_iff]
      intro hcon
      have hs := hinv hcon
      rw [ho] at hs
      simp at hs
    · by_cases h1 : p.state = PortState.opened <;>
        simp [Port.writable, ho, h1]

/-- Witness for C10 at the initial (closed) port. -/
theorem streams_iff_open_witness :
    (initialPort.readable.isSome = true ↔
      initialPort.state = PortState.opened) ∧
    (initialPort.writable.isSome = true ↔
      initialPort.state = PortState.opened) :=
  streams_iff_open initialPort Reachable.init

end WebSerial
